import Mathlib

/-!
# Verification development for the zstd-wasm-decoder core

Shallow embedding of the repository's C sources:
* `minimal_libc.c` (bin/ and src/ variants): bump-pointer arena allocator
  (`malloc`, `prune_buf`, `calloc`);
* `zstd_wasm_full.c`: the full-build arena primitives, `zstd_reset` / `reset`,
  `createDict`, and the streaming decode controller `decStream`
  (the inlined `ZSTD_decompressStream` state machine).

Machine integers are modelled as `Nat` with explicit reduction modulo `2^32`
(the width of `size_t` on the wasm32 target) wherever the C arithmetic can
wrap.  The entropy-decoding codec engine (the vendored zstd block decoder,
an external collaborator outside this repository) is abstracted as a record
of functions (`Codec`); the controller's own logic is translated statement
by statement from the source.
-/

/-- Width of `size_t` on the wasm32 target: `2^32`.  All size arithmetic in
the C sources is performed in this modulus. -/
def W32 : ℕ := 4294967296

namespace MinLibc

/-- Constant `HEAP_SIZE` from `minimal_libc.c`: `16 * 1024 * 1024` (16 MiB). -/
def HEAP_SIZE : ℕ := 16 * 1024 * 1024

/-- Rounding step `size = (size + 15) & ~15;` from `minimal_libc.c` — round the requested
size up to a multiple of 16, in 32-bit `size_t` arithmetic (clearing the low
four bits of the wrapped sum). -/
def align16 (s : ℕ) : ℕ := (s + 15) % W32 / 16 * 16

/-- Function `malloc` from `minimal_libc.c` (both the `bin/` and `src/` copies are
textually identical).  The state is the heap cursor `__heap_ptr`; the result
is the returned pointer and the new cursor.  The pointer is modelled as the
offset of the allocation inside the static `__heap` array
(`&__heap[__heap_ptr]`, which is never the null address), with `none`
modelling the null return on exhaustion.  The capacity comparison
`__heap_ptr + size > HEAP_SIZE` is `size_t` arithmetic, hence the `% W32`. -/
def malloc (cur s : ℕ) : Option ℕ × ℕ :=
  let sz := align16 s
  if (cur + sz) % W32 > HEAP_SIZE then (none, cur)
  else (some cur, (cur + sz) % W32)

/-- Function `prune_buf` from `bin/minimal_libc.c`: the cursor is rewound to
`new_size` only when `new_size <= HEAP_SIZE`; otherwise the call is a
no-op. -/
def prune_buf (cur x : ℕ) : ℕ := if x ≤ HEAP_SIZE then x else cur

/-- Product `size_t total = nmemb * size;` from `calloc` — the product is computed
in `size_t` arithmetic and therefore wraps modulo `2^32`. -/
def callocTotal (n s : ℕ) : ℕ := n % W32 * (s % W32) % W32

/-- Function `calloc` from `minimal_libc.c`: `malloc(nmemb * size)` followed by a
zero-fill of the allocated span when the pointer is non-null.  The result is
(pointer, new cursor, number of zero-filled bytes). -/
def calloc (cur n s : ℕ) : Option ℕ × ℕ × ℕ :=
  let total := callocTotal n s
  match malloc cur total with
  | (none, c) => (none, c, 0)
  | (some p, c) => (some p, c, total)

end MinLibc

namespace FullLibc

/-- Function `malloc` from `zstd_wasm_full.c` lines 113-118: read the cursor stored
at `HEAP_TAIL_PTR`, advance it by the raw (unrounded) requested size with no
capacity check of any kind, and return the old cursor value itself as the
pointer.  The returned address is null exactly when the cursor was 0. -/
def malloc (cur s : ℕ) : ℕ × ℕ := (cur % W32, (cur % W32 + s % W32) % W32)

/-- Function `prune_buf` from `zstd_wasm_full.c` lines 124-127: store `new_size`
into the cursor unconditionally. -/
def prune_buf (_cur x : ℕ) : ℕ := x % W32

/-- Function `calloc` from `zstd_wasm_full.c` lines 129-136: wrapping product, then
`malloc`, then a zero-fill of `total` bytes when the returned pointer is
non-null.  Result: (pointer value, new cursor, zero-filled bytes). -/
def calloc (cur n s : ℕ) : ℕ × ℕ × ℕ :=
  let total := MinLibc.callocTotal n s
  let r := malloc cur total
  (r.1, r.2, if r.1 ≠ 0 then total else 0)

end FullLibc

/-- A host-visible arena operation: an allocation request or a prune. -/
inductive ArenaOp where
  | alloc (s : ℕ)
  | prune (x : ℕ)

/-- One arena operation acting on the `minimal_libc.c` cursor. -/
def MinLibc.step (cur : ℕ) : ArenaOp → ℕ
  | .alloc s => (MinLibc.malloc cur s).2
  | .prune x => MinLibc.prune_buf cur x

/-- A sequence of arena operations acting on the `minimal_libc.c` cursor. -/
def MinLibc.run (cur : ℕ) : List ArenaOp → ℕ
  | [] => cur
  | op :: ops => MinLibc.run (MinLibc.step cur op) ops

/-- The pointers handed out by a sequence of `minimal_libc.c` allocations
starting from cursor `cur` (`none` = null return). -/
def MinLibc.allocPtrs (cur : ℕ) : List ℕ → List (Option ℕ)
  | [] => []
  | s :: ss =>
    (MinLibc.malloc cur s).1 :: MinLibc.allocPtrs (MinLibc.malloc cur s).2 ss

lemma MinLibc.align16_le (s : ℕ) : MinLibc.align16 s ≤ s + 15 := by
  calc MinLibc.align16 s ≤ (s + 15) % W32 := by
        unfold MinLibc.align16
        exact Nat.div_mul_le_self _ 16 |>.trans_eq (by ring_nf)
    _ ≤ s + 15 := Nat.mod_le _ _

lemma MinLibc.run_le_heap {cur : ℕ} (ops : List ArenaOp)
    (h : cur ≤ MinLibc.HEAP_SIZE) : MinLibc.run cur ops ≤ MinLibc.HEAP_SIZE := by
  induction ops generalizing cur with
  | nil => simpa [MinLibc.run] using h
  | cons op ops ih =>
    refine ih ?_
    cases op with
    | alloc s =>
      simp only [MinLibc.step, MinLibc.malloc]
      split
      · exact h
      · next hle => simpa using not_lt.mp hle
    | prune x =>
      simp only [MinLibc.step, MinLibc.prune_buf]
      split
      · assumption
      · exact h

lemma MinLibc.allocPtrs_ge {x : ℕ} (sizes : List ℕ) (cur : ℕ)
    (hx : x ≤ cur) (hcur : cur ≤ MinLibc.HEAP_SIZE)
    (hsz : ∀ s ∈ sizes, s + 15 < W32 - MinLibc.HEAP_SIZE) :
    ∀ p ∈ MinLibc.allocPtrs cur sizes, ∀ q ∈ p, x ≤ q := by
  induction sizes generalizing cur with
  | nil => simp [MinLibc.allocPtrs]
  | cons s ss ih =>
    intro p hp q hq
    have hs : s + 15 < W32 - MinLibc.HEAP_SIZE := hsz s (by simp)
    have hnw : cur + MinLibc.align16 s < W32 := by
      have h1 : MinLibc.align16 s ≤ s + 15 := MinLibc.align16_le s
      have h2 : MinLibc.HEAP_SIZE < W32 := by norm_num [MinLibc.HEAP_SIZE, W32]
      omega
    simp only [MinLibc.allocPtrs, List.mem_cons] at hp
    rcases hp with rfl | hp
    · -- the head allocation
      simp only [MinLibc.malloc] at hq
      split at hq
      · simp at hq
      · simp only at hq
        simp at hq
        omega
    · -- the tail allocations, from the advanced cursor
      have hmod : (cur + MinLibc.align16 s) % W32 = cur + MinLibc.align16 s :=
        Nat.mod_eq_of_lt hnw
      have hcur' : (MinLibc.malloc cur s).2 = cur ∨
          ((MinLibc.malloc cur s).2 = cur + MinLibc.align16 s ∧
            cur + MinLibc.align16 s ≤ MinLibc.HEAP_SIZE) := by
        simp only [MinLibc.malloc]
        split
        · exact Or.inl rfl
        · next hle =>
          refine Or.inr ⟨by simpa using hmod, ?_⟩
          have := not_lt.mp hle
          omega
      rcases hcur' with heq | ⟨heq, hle⟩
      · exact ih _ (by rw [heq]; exact hx) (by rw [heq]; exact hcur)
          (fun t ht => hsz t (by simp [ht])) p hp q hq
      · exact ih _ (by rw [heq]; omega) (by rw [heq]; exact hle)
          (fun t ht => hsz t (by simp [ht])) p hp q hq

/-- C5 counterexample: the claim quantifies over the arena `malloc` of this
repository, whose full-build copy (`zstd_wasm_full.c` lines 113-118) it also
cites.  That `malloc` neither rounds the size to the 16-byte alignment nor
ever returns the null sentinel on capacity exhaustion: starting from the
post-`createDCtx` cursor 196608, a 1-byte request advances the cursor by 1
(the claim demands the alignment-rounded 16), and a request made when the
cursor already exceeds the 16 MiB capacity of the minimal-libc arena still
returns a non-null address instead of failing. -/
theorem C5_counterexample :
    (FullLibc.malloc 196608 1).2 = 196609 ∧
    196608 + MinLibc.align16 1 = 196624 ∧
    (FullLibc.malloc (MinLibc.HEAP_SIZE + 16) 16).1 ≠ 0 := by decide

/-- C5 (amended): the `minimal_libc.c` `malloc` rounds the requested size up
to a multiple of 16 and, provided the 32-bit cursor arithmetic does not
wrap, fails returning null exactly when the cursor plus the rounded size
exceeds `HEAP_SIZE`; otherwise it returns `base + old_cursor` and advances
the cursor by the rounded size.  The full-build `malloc` of
`zstd_wasm_full.c` performs no rounding and no capacity check: it returns
the old cursor value as the address and advances the cursor by the raw
requested size. -/
theorem C5_malloc_amended (cur s : ℕ) (hnw : cur + MinLibc.align16 s < W32) :
    ((MinLibc.malloc cur s).1 = none ↔
      cur + MinLibc.align16 s > MinLibc.HEAP_SIZE) ∧
    (cur + MinLibc.align16 s ≤ MinLibc.HEAP_SIZE →
      MinLibc.malloc cur s = (some cur, cur + MinLibc.align16 s)) ∧
    (∀ c n, c < W32 → n < W32 → c + n < W32 →
      FullLibc.malloc c n = (c, c + n)) := by
  have hmod : (cur + MinLibc.align16 s) % W32 = cur + MinLibc.align16 s :=
    Nat.mod_eq_of_lt hnw
  refine ⟨?_, ?_, ?_⟩
  · simp only [MinLibc.malloc, hmod]
    split
    · next hgt => simpa using hgt
    · next hle => simpa using not_lt.mp hle
  · intro hle
    simp only [MinLibc.malloc, hmod]
    rw [if_neg (by omega)]
  · intro c n hc hn hcn
    simp only [FullLibc.malloc, Nat.mod_eq_of_lt hc, Nat.mod_eq_of_lt hn,
      Nat.mod_eq_of_lt hcn]

/-- C5 witness: the amended theorem evaluated at cursor 0 and a 1-byte
request. -/
theorem C5_witness :
    ((MinLibc.malloc 0 1).1 = none ↔
      0 + MinLibc.align16 1 > MinLibc.HEAP_SIZE) ∧
    (0 + MinLibc.align16 1 ≤ MinLibc.HEAP_SIZE →
      MinLibc.malloc 0 1 = (some 0, 0 + MinLibc.align16 1)) ∧
    (∀ c n, c < W32 → n < W32 → c + n < W32 →
      FullLibc.malloc c n = (c, c + n)) :=
  C5_malloc_amended 0 1 (by norm_num [MinLibc.align16, W32])

/-- C6 counterexample: `prune_buf` in `bin/minimal_libc.c` is guarded by
`new_size <= HEAP_SIZE`; calling it with `HEAP_SIZE + 1` leaves the cursor
unchanged, so "immediately after prune_buf(x) the cursor equals x" fails at
x = 16777217. -/
theorem C6_counterexample :
    MinLibc.prune_buf 0 16777217 = 0 ∧ (0 : ℕ) ≠ 16777217 := by decide

/-- C6 (amended): for the guarded `minimal_libc.c` arena, across every
sequence of `malloc`/`prune_buf` calls the cursor never exceeds
`HEAP_SIZE`; immediately after `prune_buf x` with `x ≤ HEAP_SIZE` the
cursor equals `x` (with `x > HEAP_SIZE` the call leaves the cursor
unchanged); and every allocation made after `prune_buf x`, as long as each
requested size is small enough that the 32-bit cursor arithmetic cannot
wrap, returns an address at or above `base + x`. -/
theorem C6_arena_amended (x : ℕ) (hx : x ≤ MinLibc.HEAP_SIZE) :
    (∀ cur ops, cur ≤ MinLibc.HEAP_SIZE →
      MinLibc.run cur ops ≤ MinLibc.HEAP_SIZE) ∧
    (∀ cur, MinLibc.prune_buf cur x = x) ∧
    (∀ sizes, (∀ s ∈ sizes, s + 15 < W32 - MinLibc.HEAP_SIZE) →
      ∀ p ∈ MinLibc.allocPtrs (MinLibc.prune_buf 0 x) sizes, ∀ q ∈ p, x ≤ q) := by
  refine ⟨fun cur ops h => MinLibc.run_le_heap ops h, ?_, ?_⟩
  · intro cur
    simp [MinLibc.prune_buf, hx]
  · intro sizes hsz
    have hp : MinLibc.prune_buf 0 x = x := by simp [MinLibc.prune_buf, hx]
    rw [hp]
    exact MinLibc.allocPtrs_ge sizes x le_rfl hx hsz

/-- C6 witness: the amended theorem at `x = 4096` with a single in-bounds
16-byte allocation. -/
theorem C6_witness :
    (∀ cur ops, cur ≤ MinLibc.HEAP_SIZE →
      MinLibc.run cur ops ≤ MinLibc.HEAP_SIZE) ∧
    (∀ cur, MinLibc.prune_buf cur 4096 = 4096) ∧
    (∀ sizes, (∀ s ∈ sizes, s + 15 < W32 - MinLibc.HEAP_SIZE) →
      ∀ p ∈ MinLibc.allocPtrs (MinLibc.prune_buf 0 4096) sizes, ∀ q ∈ p,
        4096 ≤ q) :=
  C6_arena_amended 4096 (by norm_num [MinLibc.HEAP_SIZE])

/-- C10: `calloc` computes the total byte count as `nmemb * size` reduced
modulo `2^32`; at `nmemb = size = 65536` the true product is exactly `2^32`,
the wrapped total is 0, and both the minimal-libc and the full-build
`calloc` succeed with a non-null pointer while zero-filling 0 bytes —
fewer than the mathematically requested amount. -/
theorem C10_calloc_overflow :
    (∀ n s, MinLibc.callocTotal n s = n * s % W32) ∧
    65536 * 65536 = W32 ∧
    MinLibc.callocTotal 65536 65536 = 0 ∧
    (MinLibc.calloc 0 65536 65536).1 ≠ none ∧
    (MinLibc.calloc 0 65536 65536).2.2 = 0 ∧
    (MinLibc.calloc 0 65536 65536).2.2 < 65536 * 65536 ∧
    (FullLibc.calloc 8224 65536 65536).1 ≠ 0 ∧
    (FullLibc.calloc 8224 65536 65536).2.2 = 0 := by
  refine ⟨fun n s => ?_, by decide, by decide, by decide, by decide,
    by decide, by decide, by decide⟩
  simp [MinLibc.callocTotal, Nat.mul_mod]

/-! ## The streaming decode controller of `zstd_wasm_full.c` -/

/-- Byte sequences (buffer contents). -/
abbrev Bytes := List ℕ

/-- Little-endian 32-bit read (`MEM_readLE32`) from the head of a byte
sequence; absent bytes read as 0. -/
def readLE32 (b : Bytes) : ℕ :=
  b.getD 0 0 + 256 * b.getD 1 0 + 65536 * b.getD 2 0 + 16777216 * b.getD 3 0

/-- Slice of `len` bytes of `b` starting at offset `off`. -/
def sliceFrom (b : Bytes) (off len : ℕ) : Bytes := (b.drop off).take len

/-- Overwrite `buf` at offset `off` with the bytes of `src`
(the effect of `memcpy(buf + off, src, src.length)`). -/
def writeAt (buf : Bytes) (off : ℕ) (src : Bytes) : Bytes :=
  buf.take off ++ src ++ buf.drop (off + src.length)

/-- Caller's input view (`ZSTD_inBuffer` at `STATBUF_IN`): the bytes of the
`src` region together with the `size` and `pos` fields.  Pointers are
modelled as offsets into `data`. -/
structure InBuffer where
  data : Bytes
  size : ℕ
  pos : ℕ
deriving DecidableEq

/-- Caller's output view (`ZSTD_outBuffer` at `STATBUF_OUT`): `size` and
`pos` fields.  The decoded bytes themselves are produced by the abstract
codec engine and are not tracked. -/
structure OutBuffer where
  size : ℕ
  pos : ℕ
deriving DecidableEq

/-- Frame type from the parsed frame header (`ZSTD_frameType_e`). -/
inductive FrameType where
  | frame
  | skippable
deriving DecidableEq

/-- Parsed frame header (`ZSTD_frameHeader` / `zds->fParams`). -/
structure FrameParams where
  frameContentSize : ℕ
  windowSize : ℕ
  blockSizeMax : ℕ
  frameType : FrameType
  headerSize : ℕ
  dictID : ℕ
  checksumFlag : ℕ
deriving DecidableEq

/-- Sentinel `ZSTD_CONTENTSIZE_UNKNOWN = (unsigned long long)(-1)`. -/
def ZSTD_CONTENTSIZE_UNKNOWN : ℕ := 2 ^ 64 - 1

/-- Stream stage of the controller (`ZSTD_dStreamStage`). -/
inductive StreamStage where
  | zdss_init
  | zdss_loadHeader
  | zdss_read
  | zdss_load
  | zdss_flush
deriving DecidableEq

/-- Constant `ZSTD_blockHeaderSize = 3`. -/
def ZSTD_blockHeaderSize : ℕ := 3

/-- Constant `ZSTD_FRAMEHEADERSIZE_MIN(format)`: 6 for the standard zstd
format (`ZSTD_f_zstd1 = 0`), 2 for the magicless variant. -/
def ZSTD_FRAMEHEADERSIZE_MIN (format : ℕ) : ℕ := if format = 0 then 6 else 2

/-- Output-buffer mode `ZSTD_bm_buffered = 0`. -/
def ZSTD_bm_buffered : ℕ := 0

/-- Output-buffer mode `ZSTD_bm_stable = 1`. -/
def ZSTD_bm_stable : ℕ := 1

/-- Constant `ZSTD_MAGIC_DICTIONARY = 0xEC30A437`. -/
def ZSTD_MAGIC_DICTIONARY : ℕ := 0xEC30A437

/-- Constant `ZSTD_MAGIC_SKIPPABLE_START = 0x184D2A50`. -/
def ZSTD_MAGIC_SKIPPABLE_START : ℕ := 0x184D2A50

/-- Constant `ZSTD_MAGIC_SKIPPABLE_MASK = 0xFFFFFFF0`. -/
def ZSTD_MAGIC_SKIPPABLE_MASK : ℕ := 0xFFFFFFF0

/-- Constant `ZSTD_WINDOWLOG_ABSOLUTEMIN = 10`. -/
def ZSTD_WINDOWLOG_ABSOLUTEMIN : ℕ := 10

/-- Constant `ZSTD_MAXWINDOWSIZE_DEFAULT = (1 << 27) + 1`. -/
def ZSTD_MAXWINDOWSIZE_DEFAULT : ℕ := 2 ^ 27 + 1

/-- Threshold `ZSTD_NO_FORWARD_PROGRESS_MAX = 16` of the vendored decoder:
the number of consecutive zero-progress calls tolerated before the
controller fails (the spec's fixed no-forward-progress threshold). -/
def ZSTD_NO_FORWARD_PROGRESS_MAX : ℕ := 16

/-- Inner decoding stage `ZSTDds_decodeBlockHeader` (position 2 of
`ZSTD_dStage`); the inner stage is modelled as a numeral since only the
values written or compared by `decStream` itself matter here. -/
def ZSTDds_decodeBlockHeader : ℕ := 2

/-- Inner decoding stage `ZSTDds_skipFrame` (position 7 of `ZSTD_dStage`),
the value `ZSTD_isSkipFrame` compares against. -/
def ZSTDds_skipFrame : ℕ := 7

/-- Error code `ZSTD_error_frameParameter_windowTooLarge = 16` from
`zstd_errors.h` (error returns are modelled as the enum value carried in
`Except.error` instead of the C encoding `(size_t)(0 - code)`). -/
def ZSTD_error_frameParameter_windowTooLarge : ℕ := 16

/-- Error code `ZSTD_error_corruption_detected = 20`. -/
def ZSTD_error_corruption_detected : ℕ := 20

/-- Error code `ZSTD_error_memory_allocation = 64`. -/
def ZSTD_error_memory_allocation : ℕ := 64

/-- Error code `ZSTD_error_dstSize_tooSmall = 70`. -/
def ZSTD_error_dstSize_tooSmall : ℕ := 70

/-- Error code `ZSTD_error_srcSize_wrong = 72`. -/
def ZSTD_error_srcSize_wrong : ℕ := 72

/-- Error code `ZSTD_error_dstBuffer_wrong = 74`. -/
def ZSTD_error_dstBuffer_wrong : ℕ := 74

/-- Error code `ZSTD_error_noForwardProgress_destFull = 80`. -/
def ZSTD_error_noForwardProgress_destFull : ℕ := 80

/-- Error code `ZSTD_error_noForwardProgress_inputEmpty = 82`. -/
def ZSTD_error_noForwardProgress_inputEmpty : ℕ := 82

/-- The decode session (`ZSTD_DCtx` / `ZSTD_DStream`): the fields of the
statically placed context that `decStream`, `zstd_reset` and `createDCtx`
read or write.  `stage` is the inner per-frame stage (`dctx->stage`),
`streamStage` the controller stage (`dctx->streamStage`).  The staged
buffers are represented by their pointer, size and content
(`inBuff`/`outBuff` point into one arena allocation, `outBuff = inBuff +
inBuffSize`). -/
structure DStream where
  streamStage : StreamStage
  lhSize : ℕ
  inPos : ℕ
  outStart : ℕ
  outEnd : ℕ
  hostageByte : Bool
  headerBuffer : Bytes
  expected : ℕ
  fParams : FrameParams
  noForwardProgress : ℕ
  inBuffPtr : ℕ
  inBuffSize : ℕ
  outBuffPtr : ℕ
  outBuffSize : ℕ
  inBuffContent : Bytes
  outBuffContent : Bytes
  oversizedDuration : ℕ
  stage : ℕ
  outBufferMode : ℕ
  expectedOutPos : ℕ
  expectedOutSize : ℕ
  format : ℕ
  maxWindowSize : ℕ
  maxBlockSizeParam : ℕ
  forceIgnoreChecksum : ℕ
  refMultipleDDicts : ℕ
  disableHufAsm : ℕ
  isFrameDecompression : ℕ
deriving DecidableEq

/-- The codec engine, the external collaborator of the spec: the vendored
zstd entropy/block decoder functions that `decStream` calls.  They are not
part of this repository and are abstracted as an arbitrary record of
functions; each field documents the call it stands for.
* `getFrameHeader buf format` — `ZSTD_getFrameHeader_advanced`: error code,
  or `(hSize, fParams)` where `hSize = 0` means the header in `buf` is
  complete (and `fParams` is its parse) and `hSize ≠ 0` is the total header
  size still required.
* `findFrameCompressedSize src format` —
  `ZSTD_findFrameCompressedSize_advanced` on the available input slice
  (error codes are huge `size_t` values, naturally failing the
  `cSize <= iend - istart` test).
* `decompressDDict dstCap src` — `ZSTD_decompress_usingDDict`: error, or
  (decompressed size, inner stage left behind in the context).
* `decompressBegin` — `ZSTD_decompressBegin_usingDDict` (initializes
  engine-internal entropy state not modelled here; may fail).
* `decodeFrameHeader buf` — `ZSTD_decodeFrameHeader` (validates; the
  visible `expected`/`stage` writes are done by `decStream` right after).
* `nextSrcWithInput stage expected inputSize` —
  `ZSTD_nextSrcSizeToDecompressWithInputSize`.
* `decodingBufferSize w c b` — `ZSTD_decodingBufferSize_internal`.
* `updateOversized dur bufSizes neededIn neededOut` /
  `oversizedTooLong dur` — `ZSTD_DCtx_updateOversizedDuration` /
  `ZSTD_DCtx_isOversizedTooLong` (the tunable amortization policy).
* `alloc n` — `ZSTD_customMalloc` falling through to the arena `malloc`
  (0 = null).
* `nextInputTypeIsBlock stage` — `ZSTD_nextInputType(zds) == ZSTDnit_block`.
* `decompressContinueStream zds opRem src` —
  `ZSTD_decompressContinueStream`: error, or the mutated session together
  with the number of bytes written to the caller's output cursor. -/
structure Codec where
  getFrameHeader : Bytes → ℕ → Except ℕ (ℕ × FrameParams)
  findFrameCompressedSize : Bytes → ℕ → ℕ
  decompressDDict : ℕ → Bytes → Except ℕ (ℕ × ℕ)
  decompressBegin : DStream → Except ℕ Unit
  decodeFrameHeader : Bytes → Except ℕ Unit
  nextSrcWithInput : ℕ → ℕ → ℕ → ℕ
  decodingBufferSize : ℕ → ℕ → ℕ → ℕ
  updateOversized : ℕ → ℕ → ℕ → ℕ → ℕ
  oversizedTooLong : ℕ → Bool
  alloc : ℕ → ℕ
  nextInputTypeIsBlock : ℕ → Bool
  decompressContinueStream : DStream → ℕ → Bytes → Except ℕ (DStream × ℕ)

/-- Result of one execution of a `switch` case body in the `decStream`
loop: `cont` = `break` out of the switch with `someMoreWork` still 1
(loop again on the new stage); `stop` = `someMoreWork = 0; break` (leave
the loop and run the result epilogue); `fail e` = `RETURN_ERROR` /
`FORWARD_IF_ERROR` (return the error immediately, without the position
write-back); `ret v` = the early `return` of the load-header path, which
explicitly sets `input->pos = input->size` first. -/
inductive StepRes where
  | cont (zds : DStream) (ip op : ℕ)
  | stop (zds : DStream) (ip op : ℕ)
  | fail (e : ℕ) (zds : DStream)
  | ret (v : ℕ) (zds : DStream)

/-- Case `zdss_flush` of `decStream` (lines 576-597): flush staged output
into the caller's view with `ZSTD_limitCopy`, and on a complete flush
return to `zdss_read`, rewinding the staged-output cursors when the
remaining declared content no longer needs the tail of the buffer. -/
def caseFlush (output : OutBuffer) (zds : DStream) (ip op : ℕ) : StepRes :=
  let toFlushSize := zds.outEnd - zds.outStart
  let flushedSize := min (output.size - op) toFlushSize
  let op' := op + flushedSize
  let zds1 := { zds with outStart := zds.outStart + flushedSize }
  if flushedSize = toFlushSize then
    let zds2 := { zds1 with streamStage := .zdss_read }
    let zds3 :=
      if zds2.outBuffSize < zds2.fParams.frameContentSize ∧
          zds2.outStart + zds2.fParams.blockSizeMax > zds2.outBuffSize then
        { zds2 with outStart := 0, outEnd := 0 }
      else zds2
    .cont zds3 ip op'
  else
    .stop zds1 ip op'

/-- Case `zdss_load` of `decStream` (lines 548-575): stage available input
bytes into `inBuff` up to the `ZSTD_nextSrcSizeToDecompress` need (which
is the session's `expected` field), suspend if still short, otherwise
decode the staged unit through the codec engine. -/
def caseLoad (eng : Codec) (input : InBuffer) (output : OutBuffer)
    (zds : DStream) (ip op : ℕ) : StepRes :=
  let neededInSize := zds.expected
  let toLoad := neededInSize - zds.inPos
  let isSkipFrame := zds.stage = ZSTDds_skipFrame
  if ¬ isSkipFrame ∧ toLoad > zds.inBuffSize - zds.inPos then
    .fail ZSTD_error_corruption_detected zds
  else
    let loadedSize := min toLoad (input.size - ip)
    let zds1 :=
      if isSkipFrame then zds
      else
        { zds with inBuffContent :=
            (writeAt zds.inBuffContent zds.inPos
              (sliceFrom input.data ip loadedSize)) }
    let ip' := ip + loadedSize
    let zds2 := { zds1 with inPos := zds1.inPos + loadedSize }
    if loadedSize < toLoad then
      .stop zds2 ip' op
    else
      let zds3 := { zds2 with inPos := 0 }
      match eng.decompressContinueStream zds3 (output.size - op)
          (sliceFrom zds3.inBuffContent 0 neededInSize) with
      | .error e => .fail e zds3
      | .ok (zds4, written) => .cont zds4 ip' (op + written)

/-- Case `zdss_read` of `decStream` (lines 530-547): ask the engine how
much input the next unit needs; 0 means the frame is done (back to
`zdss_init`, loop exit); if the chunk has enough, decode directly from the
caller's input; if the chunk is exhausted, suspend; otherwise fall through
into `zdss_load`. -/
def caseRead (eng : Codec) (input : InBuffer) (output : OutBuffer)
    (zds : DStream) (ip op : ℕ) : StepRes :=
  let neededInSize := eng.nextSrcWithInput zds.stage zds.expected (input.size - ip)
  if neededInSize = 0 then
    .stop { zds with streamStage := .zdss_init } ip op
  else if input.size - ip ≥ neededInSize then
    match eng.decompressContinueStream zds (output.size - op)
        (sliceFrom input.data ip neededInSize) with
    | .error e => .fail e zds
    | .ok (zds', written) => .cont zds' (ip + neededInSize) (op + written)
  else if ip = input.size then
    .stop zds ip op
  else
    caseLoad eng input output { zds with streamStage := .zdss_load } ip op

/-- Tail of case `zdss_loadHeader` (lines 473-528), entered when the header
is complete but the single-pass shortcut did not apply: the stable-mode
capacity check, `ZSTD_decompressBegin_usingDDict`, the skippable-frame
dispatch, window-size clamping, staged-buffer sizing with the amortization
policy, and the fallthrough into `zdss_read`. -/
def caseLoadHeaderTail (eng : Codec) (input : InBuffer) (output : OutBuffer)
    (zds : DStream) (ip op : ℕ) : StepRes :=
  if zds.outBufferMode = ZSTD_bm_stable ∧
      zds.fParams.frameType ≠ FrameType.skippable ∧
      zds.fParams.frameContentSize ≠ ZSTD_CONTENTSIZE_UNKNOWN ∧
      output.size - op < zds.fParams.frameContentSize then
    .fail ZSTD_error_dstSize_tooSmall zds
  else
    match eng.decompressBegin zds with
    | .error e => .fail e zds
    | .ok _ =>
      let skippable := zds.format = 0 ∧
        readLE32 zds.headerBuffer &&& ZSTD_MAGIC_SKIPPABLE_MASK =
          ZSTD_MAGIC_SKIPPABLE_START
      let afterHdr : Except ℕ DStream :=
        if skippable then
          .ok { zds with expected := readLE32 (zds.headerBuffer.drop 4),
                         stage := ZSTDds_skipFrame }
        else
          match eng.decodeFrameHeader (zds.headerBuffer.take zds.lhSize) with
          | .error e => .error e
          | .ok _ => .ok { zds with expected := ZSTD_blockHeaderSize,
                                    stage := ZSTDds_decodeBlockHeader }
      match afterHdr with
      | .error e => .fail e zds
      | .ok zds1 =>
        let ws := max zds1.fParams.windowSize (2 ^ ZSTD_WINDOWLOG_ABSOLUTEMIN)
        let zds2 := { zds1 with fParams := { zds1.fParams with windowSize := ws } }
        if ws > zds2.maxWindowSize then
          .fail ZSTD_error_frameParameter_windowTooLarge zds2
        else
          let bsm := if zds2.maxBlockSizeParam ≠ 0 then
              min zds2.fParams.blockSizeMax zds2.maxBlockSizeParam
            else zds2.fParams.blockSizeMax
          let zds3 := { zds2 with fParams := { zds2.fParams with blockSizeMax := bsm } }
          let neededInBuffSize := max zds3.fParams.blockSizeMax 4
          let neededOutBuffSize := if zds3.outBufferMode = ZSTD_bm_buffered then
              eng.decodingBufferSize zds3.fParams.windowSize
                zds3.fParams.frameContentSize zds3.fParams.blockSizeMax
            else 0
          let dur := eng.updateOversized zds3.oversizedDuration
            (zds3.inBuffSize + zds3.outBuffSize) neededInBuffSize neededOutBuffSize
          let zds4 := { zds3 with oversizedDuration := dur }
          let tooSmall := zds4.inBuffSize < neededInBuffSize ∨
            zds4.outBuffSize < neededOutBuffSize
          let tooLarge := eng.oversizedTooLong zds4.oversizedDuration
          if tooSmall ∨ tooLarge then
            let bufferSize := neededInBuffSize + neededOutBuffSize
            let p := eng.alloc bufferSize
            if p = 0 then
              .fail ZSTD_error_memory_allocation
                { zds4 with inBuffSize := 0, outBuffSize := 0 }
            else
              caseRead eng input output
                { zds4 with streamStage := .zdss_read,
                            inBuffPtr := p, inBuffSize := neededInBuffSize,
                            outBuffPtr := p + neededInBuffSize,
                            outBuffSize := neededOutBuffSize,
                            inBuffContent := [], outBuffContent := [] }
                ip op
          else
            caseRead eng input output { zds4 with streamStage := .zdss_read } ip op

/-- Case `zdss_loadHeader` of `decStream` (lines 425-528): parse the
accumulated header bytes; if incomplete, either accumulate the whole
remaining chunk and return the byte-count hint (the early `return` with
`input->pos = input->size`), or copy exactly the outstanding bytes and loop;
if complete, attempt the single-pass shortcut, else continue into
`caseLoadHeaderTail`.  Note `ZSTD_getFrameHeader_advanced` writes
`zds->fParams` through its first argument on every non-error return (the
value is only meaningful once it returns 0); the
`refMultipleDDicts && ddictSet` dictionary selection touches no modelled
field. -/
def caseLoadHeader (eng : Codec) (input : InBuffer) (output : OutBuffer)
    (zds : DStream) (ip op : ℕ) : StepRes :=
  match eng.getFrameHeader (zds.headerBuffer.take zds.lhSize) zds.format with
  | .error e => .fail e zds
  | .ok (hSize, fp) =>
    let zds0 := { zds with fParams := fp }
    if hSize ≠ 0 then
      let toLoad := hSize - zds0.lhSize
      let remainingInput := input.size - ip
      if toLoad > remainingInput then
        let zds1 :=
          if remainingInput > 0 then
            { zds0 with
              headerBuffer := writeAt zds0.headerBuffer zds0.lhSize
                (sliceFrom input.data ip remainingInput),
              lhSize := zds0.lhSize + remainingInput }
          else zds0
        match eng.getFrameHeader (zds1.headerBuffer.take zds1.lhSize) zds1.format with
        | .error e => .fail e zds1
        | .ok (_, fp2) =>
          .ret (max (ZSTD_FRAMEHEADERSIZE_MIN zds1.format) hSize - zds1.lhSize +
                ZSTD_blockHeaderSize)
            { zds1 with fParams := fp2 }
      else
        .cont { zds0 with
                headerBuffer := writeAt zds0.headerBuffer zds0.lhSize
                  (sliceFrom input.data ip toLoad),
                lhSize := hSize }
          (ip + toLoad) op
    else
      if zds0.fParams.frameContentSize ≠ ZSTD_CONTENTSIZE_UNKNOWN ∧
          zds0.fParams.frameType ≠ FrameType.skippable ∧
          output.size - op ≥ zds0.fParams.frameContentSize then
        let cSize := eng.findFrameCompressedSize
          (sliceFrom input.data input.pos (input.size - input.pos)) zds0.format
        if cSize ≤ input.size - input.pos then
          match eng.decompressDDict (output.size - op)
              (sliceFrom input.data input.pos cSize) with
          | .error e => .fail e zds0
          | .ok (dSize, st2) =>
            .stop { zds0 with expected := 0, streamStage := .zdss_init,
                              stage := st2 }
              (input.pos + cSize) (op + dSize)
        else
          caseLoadHeaderTail eng input output zds0 ip op
      else
        caseLoadHeaderTail eng input output zds0 ip op

/-- Case `zdss_init` of `decStream` (lines 418-423): reset the per-frame
fields, snapshot the caller's output view as `expectedOutBuffer`, and fall
through into `zdss_loadHeader`. -/
def caseInit (eng : Codec) (input : InBuffer) (output : OutBuffer)
    (zds : DStream) (ip op : ℕ) : StepRes :=
  caseLoadHeader eng input output
    { zds with streamStage := .zdss_loadHeader, lhSize := 0, inPos := 0,
               outStart := 0, outEnd := 0, hostageByte := false,
               expectedOutPos := output.pos, expectedOutSize := output.size }
    ip op

/-- One dispatch of the `switch (zds->streamStage)` in the `decStream`
loop, with the C fallthroughs composed into the case functions. -/
def decStep (eng : Codec) (input : InBuffer) (output : OutBuffer)
    (zds : DStream) (ip op : ℕ) : StepRes :=
  match zds.streamStage with
  | .zdss_init => caseInit eng input output zds ip op
  | .zdss_loadHeader => caseLoadHeader eng input output zds ip op
  | .zdss_read => caseRead eng input output zds ip op
  | .zdss_load => caseLoad eng input output zds ip op
  | .zdss_flush => caseFlush output zds ip op

/-- Outcome of the `while (someMoreWork)` loop. -/
inductive LoopRes where
  | stopped (zds : DStream) (ip op : ℕ)
  | failed (e : ℕ) (zds : DStream)
  | returned (v : ℕ) (zds : DStream)

/-- The `while (someMoreWork)` loop of `decStream`, fuel-indexed (the C
loop terminates by the stage discipline; any fuel at least the number of
stage transitions of the call gives the loop's value). -/
def decLoop (eng : Codec) (input : InBuffer) (output : OutBuffer) :
    ℕ → DStream → ℕ → ℕ → LoopRes
  | 0, zds, ip, op => .stopped zds ip op
  | fuel + 1, zds, ip, op =>
    match decStep eng input output zds ip op with
    | .cont zds' ip' op' => decLoop eng input output fuel zds' ip' op'
    | .stop zds' ip' op' => .stopped zds' ip' op'
    | .fail e zds' => .failed e zds'
    | .ret v zds' => .returned v zds'

/-- Check `ZSTD_checkOutBuffer`: in stable-output mode (never set by this
build, whose `zstd_reset` forces `ZSTD_bm_buffered`) the caller must pass
back the snapshotted output view unchanged. -/
def ZSTD_checkOutBuffer (zds : DStream) (output : OutBuffer) : Except ℕ Unit :=
  if zds.outBufferMode ≠ ZSTD_bm_stable then .ok ()
  else if zds.streamStage = .zdss_init then .ok ()
  else if zds.expectedOutPos = output.pos ∧ zds.expectedOutSize = output.size then .ok ()
  else .error ZSTD_error_dstBuffer_wrong

deriving instance DecidableEq for Except

/-- Full result of a `decStream` call: the returned `size_t` (error code in
`Except.error`, hint/completion value in `Except.ok`) and the final state
of the two views and of the session. -/
structure DecOut where
  res : Except ℕ ℕ
  input : InBuffer
  output : OutBuffer
  zds : DStream
deriving DecidableEq

/-- Hint/completion block of `decStream` (lines 621-644): compute
`ZSTD_nextSrcSizeToDecompress(zds)` — which returns the session's
`expected` field, the bytes the codec engine needs next — and run the
hostage-byte release protocol when the frame is fully decoded. -/
def decHint (eng : Codec) (zds : DStream) (input : InBuffer)
    (output : OutBuffer) : DecOut :=
  let nextSrcSizeHint := zds.expected
  if nextSrcSizeHint = 0 then
    if zds.outEnd = zds.outStart then
      if zds.hostageByte then
        if input.pos ≥ input.size then
          ⟨.ok 1, input, output, { zds with streamStage := .zdss_read }⟩
        else
          ⟨.ok 0, { input with pos := input.pos + 1 }, output, zds⟩
      else
        ⟨.ok 0, input, output, zds⟩
    else
      if ¬ zds.hostageByte then
        ⟨.ok 1, { input with pos := input.pos - 1 }, output,
          { zds with hostageByte := true }⟩
      else
        ⟨.ok 1, input, output, zds⟩
  else
    ⟨.ok (nextSrcSizeHint +
        (if eng.nextInputTypeIsBlock zds.stage then ZSTD_blockHeaderSize else 0) -
        zds.inPos),
      input, output, zds⟩

/-- Result epilogue of `decStream` (lines 604-644): write the final
positions back into the views, refresh `expectedOutBuffer`, run the
no-forward-progress accounting (lines 611-620: the error returns happen
after the position write-back), then the hint block. -/
def decEpilogue (eng : Codec) (entryIn : InBuffer) (entryOut : OutBuffer)
    (zds : DStream) (ip op : ℕ) : DecOut :=
  let input := { entryIn with pos := ip }
  let output := { entryOut with pos := op }
  let zds1 := { zds with expectedOutPos := output.pos,
                         expectedOutSize := output.size }
  if ip = entryIn.pos ∧ op = entryOut.pos then
    let zds2 := { zds1 with noForwardProgress := zds1.noForwardProgress + 1 }
    if zds2.noForwardProgress ≥ ZSTD_NO_FORWARD_PROGRESS_MAX then
      if op = entryOut.size then
        ⟨.error ZSTD_error_noForwardProgress_destFull, input, output, zds2⟩
      else if ip = entryIn.size then
        ⟨.error ZSTD_error_noForwardProgress_inputEmpty, input, output, zds2⟩
      else
        decHint eng zds2 input output
    else
      decHint eng zds2 input output
  else
    decHint eng { zds1 with noForwardProgress := 0 } input output

/-- Controller entry point `decStream` from `zstd_wasm_full.c` (the inlined
`ZSTD_decompressStream`): entry contract checks, `ZSTD_checkOutBuffer`, the
stage loop, then the result epilogue.  Mid-loop `RETURN_ERROR` paths leave
the view positions unwritten; the early header return sets
`input->pos = input->size` and leaves the output view untouched. -/
def decStream (eng : Codec) (fuel : ℕ) (input : InBuffer) (output : OutBuffer)
    (zds : DStream) : DecOut :=
  if input.pos > input.size then
    ⟨.error ZSTD_error_srcSize_wrong, input, output, zds⟩
  else if output.pos > output.size then
    ⟨.error ZSTD_error_dstSize_tooSmall, input, output, zds⟩
  else
    match ZSTD_checkOutBuffer zds output with
    | .error e => ⟨.error e, input, output, zds⟩
    | .ok _ =>
      match decLoop eng input output fuel zds input.pos output.pos with
      | .failed e zds' => ⟨.error e, input, output, zds'⟩
      | .returned v zds' => ⟨.ok v, { input with pos := input.size }, output, zds'⟩
      | .stopped zds' ip op => decEpilogue eng input output zds' ip op

/-- Session reset `zstd_reset` from `zstd_wasm_full.c` lines 180-192 (the
inlined `ZSTD_DCtx_resetParameters` plus the stream fields): re-enter
`zdss_init`, clear the no-forward-progress counter and the
frame-decompression flag, restore the format/window/checksum parameters to
their defaults.  No other field is touched. -/
def zstd_reset (d : DStream) : DStream :=
  { d with streamStage := .zdss_init,
           noForwardProgress := 0,
           isFrameDecompression := 1,
           format := 0,
           maxWindowSize := ZSTD_MAXWINDOWSIZE_DEFAULT,
           outBufferMode := ZSTD_bm_buffered,
           forceIgnoreChecksum := 0,
           refMultipleDDicts := 0,
           disableHufAsm := 0,
           maxBlockSizeParam := 0 }

/-- Exported `reset` wrapper (lines 653-656): `zstd_reset(dctx)`. -/
def reset (d : DStream) : DStream := zstd_reset d

/-- Constant `ZSTD_HUFFDTABLE_CAPACITY_LOG = 12`. -/
def ZSTD_HUFFDTABLE_CAPACITY_LOG : ℕ := 12

/-- Dictionary handle (`ZSTD_DDict`): the fields `createDict` writes.  The
entropy tables loaded by `ZSTD_loadDEntropy` are engine-internal and not
modelled; `entropyPresent` records whether they were loaded. -/
structure ZSTD_DDict where
  dictBufferPtr : ℕ
  dictContentPtr : ℕ
  dictSize : ℕ
  dictID : ℕ
  entropyPresent : ℕ
  hufTable0 : ℕ
deriving DecidableEq

/-- Dictionary construction performed by `createDict` in `zstd_wasm_full.c`
lines 357-379 (the inlined `ZSTD_createDDict_advanced` /
`ZSTD_initDDict_internal`): allocate the `ZSTD_DDict`, point `dictBuffer`
and `dictContent` at the caller's buffer (the `ZSTD_memcpy` of the
reference implementation is commented out — the buffer is referenced, not
copied), then check the dictionary magic and, on a match, read the
dictionary id from offset `ZSTD_FRAMEIDSIZE = 4` and load the embedded
entropy tables.  `dictPtr` is the address of the caller's buffer,
`dictBytes` its content.  Note the C function is declared `void*` but ends
without a `return` statement, so the handle this function builds is never
actually returned to the caller. -/
def createDict (dictPtr : ℕ) (dictBytes : Bytes) (dictSize : ℕ) : ZSTD_DDict :=
  let d0 : ZSTD_DDict :=
    { dictBufferPtr := dictPtr, dictContentPtr := dictPtr, dictSize := dictSize,
      dictID := 0, entropyPresent := 0,
      hufTable0 := ZSTD_HUFFDTABLE_CAPACITY_LOG * 0x1000001 }
  if readLE32 dictBytes = ZSTD_MAGIC_DICTIONARY then
    { d0 with dictID := readLE32 (dictBytes.drop 4), entropyPresent := 1 }
  else d0

/-- An 8-byte dictionary blob: the dictionary magic `0xEC30A437` in little
endian, followed by the dictionary id 42. -/
def dictBlobC9 : Bytes := [0x37, 0xA4, 0x30, 0xEC, 42, 0, 0, 0]

/-- C9: the dictionary construction of `createDict` references (does not
copy) the caller's buffer — both content pointers equal the caller's
address for every input — and on the concrete blob `dictBlobC9` the magic
check succeeds, the dictionary id 42 is read from offset 4, and the
embedded entropy tables are loaded (`entropyPresent = 1`); on a blob
without the magic nothing is parsed.  (The claim's "returns a dictionary
handle" part fails in the code: `createDict` is declared `void*` but has no
`return` statement.) -/
theorem C9_createDict :
    (∀ p b n, (createDict p b n).dictBufferPtr = p ∧
      (createDict p b n).dictContentPtr = p) ∧
    createDict 4096 dictBlobC9 8 =
      { dictBufferPtr := 4096, dictContentPtr := 4096, dictSize := 8,
        dictID := 42, entropyPresent := 1,
        hufTable0 := ZSTD_HUFFDTABLE_CAPACITY_LOG * 0x1000001 } ∧
    (createDict 4096 [0, 0, 0, 0, 9, 9, 9, 9] 8).entropyPresent = 0 ∧
    (createDict 4096 [0, 0, 0, 0, 9, 9, 9, 9] 8).dictID = 0 := by
  refine ⟨fun p b n => ?_, by decide, by decide, by decide⟩
  unfold createDict
  split <;> exact ⟨rfl, rfl⟩

/-- C8: `zstd_reset` re-enters the initial stream stage and clears the
per-frame counters and parameters — stream stage, no-forward-progress
counter, frame-decompression flag, format, maximum window size,
output-buffer mode, checksum policy, dictionary-reference mode, and the
block-size/Huffman tuning — while leaving the staged buffer fields (the
staged input buffer pointer and size, the staged output buffer pointer and
size, and their contents) unchanged. -/
theorem C8_reset_session (d : DStream) :
    (zstd_reset d).streamStage = StreamStage.zdss_init ∧
    (zstd_reset d).noForwardProgress = 0 ∧
    (zstd_reset d).isFrameDecompression = 1 ∧
    (zstd_reset d).format = 0 ∧
    (zstd_reset d).maxWindowSize = ZSTD_MAXWINDOWSIZE_DEFAULT ∧
    (zstd_reset d).outBufferMode = ZSTD_bm_buffered ∧
    (zstd_reset d).forceIgnoreChecksum = 0 ∧
    (zstd_reset d).refMultipleDDicts = 0 ∧
    (zstd_reset d).disableHufAsm = 0 ∧
    (zstd_reset d).maxBlockSizeParam = 0 ∧
    (zstd_reset d).inBuffPtr = d.inBuffPtr ∧
    (zstd_reset d).inBuffSize = d.inBuffSize ∧
    (zstd_reset d).outBuffPtr = d.outBuffPtr ∧
    (zstd_reset d).outBuffSize = d.outBuffSize ∧
    (zstd_reset d).inBuffContent = d.inBuffContent ∧
    (zstd_reset d).outBuffContent = d.outBuffContent :=
  ⟨rfl, rfl, rfl, rfl, rfl, rfl, rfl, rfl, rfl, rfl, rfl, rfl, rfl, rfl, rfl, rfl⟩

/-- C7: a `decStream` call entered with `pos > size` on either view returns
a contract error immediately (`srcSize_wrong` for the input view, checked
first, `dstSize_tooSmall` for the output view) and mutates neither the
session state nor either view. -/
theorem C7_entry_contract (eng : Codec) (fuel : ℕ) (input : InBuffer)
    (output : OutBuffer) (zds : DStream)
    (h : input.pos > input.size ∨ output.pos > output.size) :
    ((decStream eng fuel input output zds).res =
        .error ZSTD_error_srcSize_wrong ∨
      (decStream eng fuel input output zds).res =
        .error ZSTD_error_dstSize_tooSmall) ∧
    (decStream eng fuel input output zds).input = input ∧
    (decStream eng fuel input output zds).output = output ∧
    (decStream eng fuel input output zds).zds = zds := by
  by_cases h1 : input.pos > input.size
  · simp [decStream, h1]
  · rcases h with h | h
    · exact absurd h h1
    · simp [decStream, h1, h]

/-- Default frame parameters used to build concrete witness states. -/
def fp0 : FrameParams :=
  { frameContentSize := 0, windowSize := 0, blockSizeMax := 0,
    frameType := .frame, headerSize := 0, dictID := 0, checksumFlag := 0 }

/-- A concrete session state after `createDCtx`/`zstd_reset`: buffered
output mode, empty staged buffers, initial stage. -/
def zdsBase : DStream :=
  { streamStage := .zdss_init, lhSize := 0, inPos := 0, outStart := 0,
    outEnd := 0, hostageByte := false, headerBuffer := [], expected := 0,
    fParams := fp0, noForwardProgress := 0, inBuffPtr := 0, inBuffSize := 0,
    outBuffPtr := 0, outBuffSize := 0, inBuffContent := [],
    outBuffContent := [], oversizedDuration := 0, stage := 0,
    outBufferMode := 0, expectedOutPos := 0, expectedOutSize := 0,
    format := 0, maxWindowSize := ZSTD_MAXWINDOWSIZE_DEFAULT,
    maxBlockSizeParam := 0, forceIgnoreChecksum := 0, refMultipleDDicts := 0,
    disableHufAsm := 0, isFrameDecompression := 1 }

/-- A concrete codec engine with constant answers, used to instantiate the
abstract engine in witnesses and counterexamples. -/
def engTrivial : Codec :=
  { getFrameHeader := fun _ _ => .ok (0, fp0),
    findFrameCompressedSize := fun _ _ => 0,
    decompressDDict := fun _ _ => .ok (0, 0),
    decompressBegin := fun _ => .ok (),
    decodeFrameHeader := fun _ => .ok (),
    nextSrcWithInput := fun _ e _ => e,
    decodingBufferSize := fun _ _ _ => 0,
    updateOversized := fun d _ _ _ => d,
    oversizedTooLong := fun _ => false,
    alloc := fun _ => 0,
    nextInputTypeIsBlock := fun _ => false,
    decompressContinueStream := fun z _ _ => .ok (z, 0) }

/-- C7 witness: the contract-error theorem at a concrete call with
`input.pos = 5 > 4 = input.size`. -/
theorem C7_witness :
    ((decStream engTrivial 1 ⟨[0, 0, 0, 0], 4, 5⟩ ⟨4, 0⟩ zdsBase).res =
        .error ZSTD_error_srcSize_wrong ∨
      (decStream engTrivial 1 ⟨[0, 0, 0, 0], 4, 5⟩ ⟨4, 0⟩ zdsBase).res =
        .error ZSTD_error_dstSize_tooSmall) ∧
    (decStream engTrivial 1 ⟨[0, 0, 0, 0], 4, 5⟩ ⟨4, 0⟩ zdsBase).input =
      ⟨[0, 0, 0, 0], 4, 5⟩ ∧
    (decStream engTrivial 1 ⟨[0, 0, 0, 0], 4, 5⟩ ⟨4, 0⟩ zdsBase).output =
      ⟨4, 0⟩ ∧
    (decStream engTrivial 1 ⟨[0, 0, 0, 0], 4, 5⟩ ⟨4, 0⟩ zdsBase).zds =
      zdsBase :=
  C7_entry_contract engTrivial 1 ⟨[0, 0, 0, 0], 4, 5⟩ ⟨4, 0⟩ zdsBase
    (Or.inl (by decide))

/-- C1: a `decStream` call in the header-loading stage whose accumulated
header parses completely (`hSize = 0`) with a known content size and a
non-skippable frame type, whose output view has at least the declared
content size of remaining room, and whose current input chunk already holds
the whole compressed frame (`cSize ≤ iend - istart`), decodes the entire
frame in the single `decompressDDict` engine call directly between the
caller's views: the input position advances by the compressed size, the
output position by the decompressed size, the call reports completion
(`0`), the stream stage returns to `zdss_init`, and the staged input/output
buffers (pointers, sizes and contents) are untouched.  The hypotheses
`outEnd = outStart` and `hostageByte = false` are the state left by the
`zdss_init` case that every entry into `zdss_loadHeader` passes through;
`0 < cSize` holds for every frame (a frame has at least its header). -/
theorem C1_single_pass (eng : Codec) (fuel : ℕ) (input : InBuffer)
    (output : OutBuffer) (zds : DStream) (fp : FrameParams)
    (cSize dSize st2 : ℕ)
    (hstage : zds.streamStage = .zdss_loadHeader)
    (hip : input.pos ≤ input.size)
    (hop : output.pos ≤ output.size)
    (hmode : zds.outBufferMode = ZSTD_bm_buffered)
    (hoe : zds.outEnd = zds.outStart)
    (hhb : zds.hostageByte = false)
    (hhdr : eng.getFrameHeader (zds.headerBuffer.take zds.lhSize) zds.format =
      .ok (0, fp))
    (hknown : fp.frameContentSize ≠ ZSTD_CONTENTSIZE_UNKNOWN)
    (hskip : fp.frameType ≠ FrameType.skippable)
    (hroom : output.size - output.pos ≥ fp.frameContentSize)
    (hcsz : eng.findFrameCompressedSize
      (sliceFrom input.data input.pos (input.size - input.pos)) zds.format =
      cSize)
    (hfit : cSize ≤ input.size - input.pos)
    (hpos : 0 < cSize)
    (hdec : eng.decompressDDict (output.size - output.pos)
      (sliceFrom input.data input.pos cSize) = .ok (dSize, st2)) :
    (decStream eng (fuel + 1) input output zds).res = .ok 0 ∧
    (decStream eng (fuel + 1) input output zds).input.pos =
      input.pos + cSize ∧
    (decStream eng (fuel + 1) input output zds).output.pos =
      output.pos + dSize ∧
    (decStream eng (fuel + 1) input output zds).zds.streamStage =
      StreamStage.zdss_init ∧
    (decStream eng (fuel + 1) input output zds).zds.inBuffPtr = zds.inBuffPtr ∧
    (decStream eng (fuel + 1) input output zds).zds.inBuffSize =
      zds.inBuffSize ∧
    (decStream eng (fuel + 1) input output zds).zds.outBuffPtr =
      zds.outBuffPtr ∧
    (decStream eng (fuel + 1) input output zds).zds.outBuffSize =
      zds.outBuffSize ∧
    (decStream eng (fuel + 1) input output zds).zds.inBuffContent =
      zds.inBuffContent ∧
    (decStream eng (fuel + 1) input output zds).zds.outBuffContent =
      zds.outBuffContent := by
  have h1 : ¬ input.pos > input.size := not_lt.mpr hip
  have h2 : ¬ output.pos > output.size := not_lt.mpr hop
  have hchk : ZSTD_checkOutBuffer zds output = .ok () := by
    simp [ZSTD_checkOutBuffer, hmode, ZSTD_bm_buffered, ZSTD_bm_stable]
  have hstep : decStep eng input output zds input.pos output.pos =
      .stop { zds with fParams := fp, expected := 0,
                       streamStage := .zdss_init, stage := st2 }
        (input.pos + cSize) (output.pos + dSize) := by
    simp only [decStep, hstage, caseLoadHeader, hhdr]
    simp only [ne_eq, not_true_eq_false, if_false, ite_false, reduceIte]
    rw [if_pos ⟨hknown, hskip, hroom⟩, hcsz, if_pos hfit, hdec]
  have hloop : decLoop eng input output (fuel + 1) zds input.pos output.pos =
      .stopped { zds with fParams := fp, expected := 0,
                          streamStage := .zdss_init, stage := st2 }
        (input.pos + cSize) (output.pos + dSize) := by
    simp only [decLoop]
    rw [hstep]
  have hne : ¬ (input.pos + cSize = input.pos ∧
      output.pos + dSize = output.pos) := by
    rintro ⟨hc, -⟩
    omega
  simp only [decStream, h1, h2, hchk, hloop, if_false, decEpilogue, hne,
    decHint, hoe, hhb, reduceIte, ite_false, ite_true]
  simp [hoe, hhb]

/-- Frame parameters of the concrete single-pass witness frame: declared
content size 1, not skippable. -/
def fpC1 : FrameParams :=
  { frameContentSize := 1, windowSize := 1024, blockSizeMax := 1024,
    frameType := .frame, headerSize := 6, dictID := 0, checksumFlag := 0 }

/-- A concrete engine for the single-pass witness: the 6 accumulated header
bytes parse completely to `fpC1`, the whole frame is 7 compressed bytes,
and it decompresses to 1 byte. -/
def engC1 : Codec :=
  { engTrivial with
    getFrameHeader := fun _ _ => .ok (0, fpC1),
    findFrameCompressedSize := fun _ _ => 7,
    decompressDDict := fun _ _ => .ok (1, 0) }

/-- Session state of the single-pass witness: suspended in
`zdss_loadHeader` with 6 header bytes accumulated. -/
def zdsC1 : DStream :=
  { zdsBase with streamStage := .zdss_loadHeader, lhSize := 6,
                 headerBuffer := [40, 181, 47, 253, 0, 0] }

/-- Input view of the single-pass witness: an 8-byte chunk holding the
whole 7-byte frame. -/
def inC1 : InBuffer := ⟨[40, 181, 47, 253, 0, 0, 0, 0], 8, 0⟩

/-- Output view of the single-pass witness: 4 bytes of room. -/
def outC1 : OutBuffer := ⟨4, 0⟩

/-- C1 witness: the single-pass theorem at the concrete frame above. -/
theorem C1_witness :
    (decStream engC1 (0 + 1) inC1 outC1 zdsC1).res = .ok 0 ∧
    (decStream engC1 (0 + 1) inC1 outC1 zdsC1).input.pos = inC1.pos + 7 ∧
    (decStream engC1 (0 + 1) inC1 outC1 zdsC1).output.pos = outC1.pos + 1 ∧
    (decStream engC1 (0 + 1) inC1 outC1 zdsC1).zds.streamStage =
      StreamStage.zdss_init ∧
    (decStream engC1 (0 + 1) inC1 outC1 zdsC1).zds.inBuffPtr =
      zdsC1.inBuffPtr ∧
    (decStream engC1 (0 + 1) inC1 outC1 zdsC1).zds.inBuffSize =
      zdsC1.inBuffSize ∧
    (decStream engC1 (0 + 1) inC1 outC1 zdsC1).zds.outBuffPtr =
      zdsC1.outBuffPtr ∧
    (decStream engC1 (0 + 1) inC1 outC1 zdsC1).zds.outBuffSize =
      zdsC1.outBuffSize ∧
    (decStream engC1 (0 + 1) inC1 outC1 zdsC1).zds.inBuffContent =
      zdsC1.inBuffContent ∧
    (decStream engC1 (0 + 1) inC1 outC1 zdsC1).zds.outBuffContent =
      zdsC1.outBuffContent :=
  C1_single_pass engC1 0 inC1 outC1 zdsC1 fpC1 7 1 0 rfl (by decide)
    (by decide) rfl rfl rfl rfl (by decide) (by decide) (by decide) rfl
    (by decide) (by decide) rfl

lemma writeAt_take (buf src : Bytes) (off : ℕ) (h : off ≤ buf.length) :
    (writeAt buf off src).take (off + src.length) = buf.take off ++ src := by
  have hlen : (buf.take off ++ src).length = off + src.length := by
    simp [List.length_take, Nat.min_eq_left h]
  calc (writeAt buf off src).take (off + src.length)
      = ((buf.take off ++ src) ++ buf.drop (off + src.length)).take
          (off + src.length) := by
        simp [writeAt, List.append_assoc]
    _ = buf.take off ++ src := List.take_left' hlen

lemma length_sliceFrom (b : Bytes) (off len : ℕ) (h : off + len ≤ b.length) :
    (sliceFrom b off len).length = len := by
  simp only [sliceFrom, List.length_take, List.length_drop]
  omega

/-- C4: a `decStream` call in the header-loading stage where the current
chunk holds fewer bytes than the header still requires
(`toLoad > remainingInput`) copies all remaining input bytes into the
session's header accumulation buffer at offset `lhSize`, advances the input
view's position to the input view's size, leaves the output view untouched,
and returns the positive byte-count hint
`max(frame-header minimum, required header size) - accumulated bytes`
plus one block header (3 bytes).  The hypothesis `lhSize < hSize` is the
source's own invariant ("if hSize!=0, hSize > zds->lhSize"); `hre` states
that the sanity re-parse of the accumulated bytes does not reject them. -/
theorem C4_header_accumulate (eng : Codec) (fuel : ℕ) (input : InBuffer)
    (output : OutBuffer) (zds : DStream) (hSize hs2 : ℕ) (fp fps2 : FrameParams)
    (hstage : zds.streamStage = .zdss_loadHeader)
    (hip : input.pos ≤ input.size)
    (hop : output.pos ≤ output.size)
    (hmode : zds.outBufferMode = ZSTD_bm_buffered)
    (hdatalen : input.size ≤ input.data.length)
    (hhblen : zds.lhSize ≤ zds.headerBuffer.length)
    (hhdr : eng.getFrameHeader (zds.headerBuffer.take zds.lhSize) zds.format =
      .ok (hSize, fp))
    (hlh : zds.lhSize < hSize)
    (hshort : input.size - input.pos < hSize - zds.lhSize)
    (hre : eng.getFrameHeader
      ((if input.size - input.pos > 0 then
          writeAt zds.headerBuffer zds.lhSize
            (sliceFrom input.data input.pos (input.size - input.pos))
        else zds.headerBuffer).take (zds.lhSize + (input.size - input.pos)))
      zds.format = .ok (hs2, fps2)) :
    (decStream eng (fuel + 1) input output zds).res =
      .ok (max (ZSTD_FRAMEHEADERSIZE_MIN zds.format) hSize -
        (zds.lhSize + (input.size - input.pos)) + ZSTD_blockHeaderSize) ∧
    0 < max (ZSTD_FRAMEHEADERSIZE_MIN zds.format) hSize -
      (zds.lhSize + (input.size - input.pos)) + ZSTD_blockHeaderSize ∧
    (decStream eng (fuel + 1) input output zds).input.pos = input.size ∧
    (decStream eng (fuel + 1) input output zds).output.pos = output.pos ∧
    (decStream eng (fuel + 1) input output zds).zds.lhSize =
      zds.lhSize + (input.size - input.pos) ∧
    (decStream eng (fuel + 1) input output zds).zds.headerBuffer.take
        (zds.lhSize + (input.size - input.pos)) =
      zds.headerBuffer.take zds.lhSize ++
        sliceFrom input.data input.pos (input.size - input.pos) := by
  have h1 : ¬ input.pos > input.size := not_lt.mpr hip
  have h2 : ¬ output.pos > output.size := not_lt.mpr hop
  have hchk : ZSTD_checkOutBuffer zds output = .ok () := by
    simp [ZSTD_checkOutBuffer, hmode, ZSTD_bm_buffered, ZSTD_bm_stable]
  have hnz : hSize ≠ 0 := by omega
  have htl : hSize - zds.lhSize > input.size - input.pos := hshort
  rcases Nat.eq_zero_or_pos (input.size - input.pos) with hrem | hrem
  · -- the chunk is already exhausted: nothing is copied
    have hre' : eng.getFrameHeader (zds.headerBuffer.take zds.lhSize)
        zds.format = .ok (hs2, fps2) := by
      rw [hrem] at hre
      simpa using hre
    have hstep : decStep eng input output zds input.pos output.pos =
        .ret (max (ZSTD_FRAMEHEADERSIZE_MIN zds.format) hSize - zds.lhSize +
            ZSTD_blockHeaderSize)
          { zds with fParams := fps2 } := by
      simp only [decStep, hstage, caseLoadHeader, hhdr]
      rw [if_pos hnz, if_pos htl, if_neg (by omega)]
      simp only
      rw [hre']
    have hloop : decLoop eng input output (fuel + 1) zds input.pos
        output.pos = .returned (max (ZSTD_FRAMEHEADERSIZE_MIN zds.format)
          hSize - zds.lhSize + ZSTD_blockHeaderSize)
          { zds with fParams := fps2 } := by
      simp only [decLoop]
      rw [hstep]
    have hfinal : decStream eng (fuel + 1) input output zds =
        ⟨.ok (max (ZSTD_FRAMEHEADERSIZE_MIN zds.format) hSize - zds.lhSize +
            ZSTD_blockHeaderSize),
          { input with pos := input.size }, output,
          { zds with fParams := fps2 }⟩ := by
      simp only [decStream, h1, h2, hchk, hloop, if_false, reduceIte]
    refine ⟨by rw [hfinal, hrem, Nat.add_zero], by omega,
      by rw [hfinal], by rw [hfinal], by rw [hfinal]; simp [hrem],
      by rw [hfinal]; simp [hrem, sliceFrom]⟩
  · -- copy the remaining bytes into the header buffer
    have hre' : eng.getFrameHeader
        ((writeAt zds.headerBuffer zds.lhSize
            (sliceFrom input.data input.pos (input.size - input.pos))).take
          (zds.lhSize + (input.size - input.pos))) zds.format =
        .ok (hs2, fps2) := by
      rw [if_pos hrem] at hre
      exact hre
    have hstep : decStep eng input output zds input.pos output.pos =
        .ret (max (ZSTD_FRAMEHEADERSIZE_MIN zds.format) hSize -
            (zds.lhSize + (input.size - input.pos)) + ZSTD_blockHeaderSize)
          { zds with
            headerBuffer := writeAt zds.headerBuffer zds.lhSize
              (sliceFrom input.data input.pos (input.size - input.pos)),
            lhSize := zds.lhSize + (input.size - input.pos),
            fParams := fps2 } := by
      simp only [decStep, hstage, caseLoadHeader, hhdr]
      rw [if_pos hnz, if_pos htl, if_pos hrem]
      simp only
      rw [hre']
    have hloop : decLoop eng input output (fuel + 1) zds input.pos
        output.pos = .returned (max (ZSTD_FRAMEHEADERSIZE_MIN zds.format)
            hSize - (zds.lhSize + (input.size - input.pos)) +
            ZSTD_blockHeaderSize)
          { zds with
            headerBuffer := writeAt zds.headerBuffer zds.lhSize
              (sliceFrom input.data input.pos (input.size - input.pos)),
            lhSize := zds.lhSize + (input.size - input.pos),
            fParams := fps2 } := by
      simp only [decLoop]
      rw [hstep]
    have hfinal : decStream eng (fuel + 1) input output zds =
        ⟨.ok (max (ZSTD_FRAMEHEADERSIZE_MIN zds.format) hSize -
            (zds.lhSize + (input.size - input.pos)) + ZSTD_blockHeaderSize),
          { input with pos := input.size }, output,
          { zds with
            headerBuffer := writeAt zds.headerBuffer zds.lhSize
              (sliceFrom input.data input.pos (input.size - input.pos)),
            lhSize := zds.lhSize + (input.size - input.pos),
            fParams := fps2 }⟩ := by
      simp only [decStream, h1, h2, hchk, hloop, if_false, reduceIte]
    have hslen : (sliceFrom input.data input.pos
        (input.size - input.pos)).length = input.size - input.pos :=
      length_sliceFrom _ _ _ (by omega)
    refine ⟨by rw [hfinal], by omega, by rw [hfinal], by rw [hfinal],
      by rw [hfinal], ?_⟩
    rw [hfinal]
    have := writeAt_take zds.headerBuffer
      (sliceFrom input.data input.pos (input.size - input.pos)) zds.lhSize
      hhblen
    rw [hslen] at this
    simpa using this

/-- A concrete engine for the header-accumulation witness: every parse of
an incomplete header asks for a 9-byte header. -/
def engC4 : Codec :=
  { engTrivial with getFrameHeader := fun _ _ => .ok (9, fp0) }

/-- Session state of the header-accumulation witness: 2 header bytes
already accumulated out of 9 required. -/
def zdsC4 : DStream :=
  { zdsBase with streamStage := .zdss_loadHeader, lhSize := 2,
                 headerBuffer := [40, 181, 0, 0, 0, 0] }

/-- Input view of the header-accumulation witness: only 3 more bytes
available, fewer than the 7 still required. -/
def inC4 : InBuffer := ⟨[253, 4, 88], 3, 0⟩

/-- C4 witness: the header-accumulation theorem at the concrete state
above (hint = max(6, 9) - (2 + 3) + 3 = 7). -/
theorem C4_witness :
    (decStream engC4 (0 + 1) inC4 ⟨4, 0⟩ zdsC4).res =
      .ok (max (ZSTD_FRAMEHEADERSIZE_MIN zdsC4.format) 9 -
        (zdsC4.lhSize + (inC4.size - inC4.pos)) + ZSTD_blockHeaderSize) ∧
    0 < max (ZSTD_FRAMEHEADERSIZE_MIN zdsC4.format) 9 -
      (zdsC4.lhSize + (inC4.size - inC4.pos)) + ZSTD_blockHeaderSize ∧
    (decStream engC4 (0 + 1) inC4 ⟨4, 0⟩ zdsC4).input.pos = inC4.size ∧
    (decStream engC4 (0 + 1) inC4 ⟨4, 0⟩ zdsC4).output.pos = (0 : ℕ) ∧
    (decStream engC4 (0 + 1) inC4 ⟨4, 0⟩ zdsC4).zds.lhSize =
      zdsC4.lhSize + (inC4.size - inC4.pos) ∧
    (decStream engC4 (0 + 1) inC4 ⟨4, 0⟩ zdsC4).zds.headerBuffer.take
        (zdsC4.lhSize + (inC4.size - inC4.pos)) =
      zdsC4.headerBuffer.take zdsC4.lhSize ++
        sliceFrom inC4.data inC4.pos (inC4.size - inC4.pos) :=
  C4_header_accumulate engC4 0 inC4 ⟨4, 0⟩ zdsC4 9 9 fp0 fp0 rfl
    (by decide) (by decide) rfl (by decide) (by decide) rfl (by decide)
    (by decide) (by decide)

deriving instance DecidableEq for StepRes
deriving instance DecidableEq for LoopRes

lemma decHint_noForward (eng : Codec) (z : DStream) (i : InBuffer)
    (o : OutBuffer) :
    (decHint eng z i o).zds.noForwardProgress = z.noForwardProgress := by
  simp only [decHint]
  split_ifs <;> rfl

/-- Session state of the hostage counterexample and witness: the frame's
decoded content is complete (`expected = 0`), all staged output has been
flushed (`outEnd = outStart`), and the hostage flag is set. -/
def zdsC2 : DStream :=
  { zdsBase with streamStage := .zdss_read, hostageByte := true }

/-- Input view of the hostage counterexample: the input position has
reached the input size (no more data). -/
def inC2 : InBuffer := ⟨[7, 7], 2, 2⟩

/-- Output view used in the hostage counterexample and witness. -/
def outC2 : OutBuffer := ⟨4, 1⟩

/-- C2 counterexample: with the hostage flag set and the subsequent call
showing the input position has reached the input size with no more data
forthcoming, the claim says the hostage byte is released (position
re-advanced by one, return 0); the code instead refuses to release — it
returns 1, leaves the input position at the size, and parks the stream
stage in `zdss_read`. -/
theorem C2_counterexample :
    (decStream engTrivial 2 inC2 outC2 zdsC2).res = .ok 1 ∧
    (decStream engTrivial 2 inC2 outC2 zdsC2).input.pos = 2 ∧
    (decStream engTrivial 2 inC2 outC2 zdsC2).zds.streamStage =
      StreamStage.zdss_read ∧
    ¬ ((decStream engTrivial 2 inC2 outC2 zdsC2).res = .ok 0 ∧
        (decStream engTrivial 2 inC2 outC2 zdsC2).input.pos = 3) := by
  decide

/-- C2 (amended): in a session whose hostage flag is set (frame content
fully decoded, `expected = 0`, staged output fully flushed), a subsequent
`decStream` call releases the hostage byte — re-advancing the input
position by one and returning 0 — exactly when the call finds the input
position strictly below the input size (the withheld byte or newly arrived
data is present) and the no-forward-progress limit has not been reached;
when the input position has reached the input size the byte is not
released: the call returns 1, leaves the position unchanged, and sets the
stream stage back to `zdss_read`. -/
theorem C2_hostage_release (eng : Codec) (fuel : ℕ) (input : InBuffer)
    (output : OutBuffer) (zds : DStream)
    (hstage : zds.streamStage = .zdss_read)
    (hhb : zds.hostageByte = true)
    (hexp : zds.expected = 0)
    (hflushed : zds.outEnd = zds.outStart)
    (hip : input.pos ≤ input.size)
    (hop : output.pos ≤ output.size)
    (hmode : zds.outBufferMode = ZSTD_bm_buffered)
    (hwi : eng.nextSrcWithInput zds.stage 0 (input.size - input.pos) = 0)
    (hcnt : zds.noForwardProgress + 1 < ZSTD_NO_FORWARD_PROGRESS_MAX) :
    (input.pos < input.size →
      (decStream eng (fuel + 1) input output zds).res = .ok 0 ∧
      (decStream eng (fuel + 1) input output zds).input.pos =
        input.pos + 1 ∧
      (decStream eng (fuel + 1) input output zds).output.pos = output.pos) ∧
    (input.pos = input.size →
      (decStream eng (fuel + 1) input output zds).res = .ok 1 ∧
      (decStream eng (fuel + 1) input output zds).input.pos = input.pos ∧
      (decStream eng (fuel + 1) input output zds).zds.streamStage =
        StreamStage.zdss_read) := by
  have h1 : ¬ input.pos > input.size := not_lt.mpr hip
  have h2 : ¬ output.pos > output.size := not_lt.mpr hop
  have hchk : ZSTD_checkOutBuffer zds output = .ok () := by
    simp [ZSTD_checkOutBuffer, hmode, ZSTD_bm_buffered, ZSTD_bm_stable]
  have hstep : decStep eng input output zds input.pos output.pos =
      .stop { zds with streamStage := .zdss_init } input.pos output.pos := by
    simp only [decStep, hstage, caseRead, hexp, hwi, reduceIte]
  have hloop : decLoop eng input output (fuel + 1) zds input.pos output.pos =
      .stopped { zds with streamStage := .zdss_init } input.pos output.pos := by
    simp only [decLoop]
    rw [hstep]
  have hout : decStream eng (fuel + 1) input output zds =
      decEpilogue eng input output { zds with streamStage := .zdss_init }
        input.pos output.pos := by
    simp only [decStream, h1, h2, hchk, hloop, if_false, reduceIte]
  have hc : ¬ (zds.noForwardProgress + 1 ≥ ZSTD_NO_FORWARD_PROGRESS_MAX) :=
    not_le.mpr hcnt
  constructor
  · intro hlt
    have hnge : ¬ input.size ≤ input.pos := not_le.mpr hlt
    rw [hout]
    simp only [decEpilogue, decHint]
    simp [hc, hexp, hflushed, hhb, hnge]
  · intro heq
    have hge : input.size ≤ input.pos := heq.ge
    rw [hout]
    simp only [decEpilogue, decHint]
    simp [hc, hexp, hflushed, hhb, hge]

/-- Input view of the hostage-release witness: the withheld byte is still
pending (`pos = 1 < 2 = size`). -/
def inC2b : InBuffer := ⟨[7, 7], 2, 1⟩

/-- C2 witness: the amended hostage theorem at the concrete states above
(release branch with `inC2b`, refusal branch vacuous). -/
theorem C2_witness :
    (inC2b.pos < inC2b.size →
      (decStream engTrivial (0 + 1) inC2b outC2 zdsC2).res = .ok 0 ∧
      (decStream engTrivial (0 + 1) inC2b outC2 zdsC2).input.pos =
        inC2b.pos + 1 ∧
      (decStream engTrivial (0 + 1) inC2b outC2 zdsC2).output.pos =
        outC2.pos) ∧
    (inC2b.pos = inC2b.size →
      (decStream engTrivial (0 + 1) inC2b outC2 zdsC2).res = .ok 1 ∧
      (decStream engTrivial (0 + 1) inC2b outC2 zdsC2).input.pos =
        inC2b.pos ∧
      (decStream engTrivial (0 + 1) inC2b outC2 zdsC2).zds.streamStage =
        StreamStage.zdss_read) :=
  C2_hostage_release engTrivial 0 inC2b outC2 zdsC2 rfl rfl rfl rfl
    (by decide) (by decide) rfl rfl (by decide)

/-- C3 counterexample: a zero-progress call that is not accounted.  A
`decStream` call suspended in the header-loading stage with its chunk
already exhausted (entry `pos = size = 3`, header incomplete) consumes
zero input and produces zero output, yet returns the "need more input"
hint 10 through the early header return — which skips the
no-forward-progress block entirely — so the session's counter stays 0
instead of being incremented as the claim states. -/
theorem C3_counterexample :
    (decStream engC4 1 ⟨[253, 4, 88], 3, 3⟩ ⟨4, 0⟩ zdsC4).res = .ok 10 ∧
    (decStream engC4 1 ⟨[253, 4, 88], 3, 3⟩ ⟨4, 0⟩ zdsC4).input.pos = 3 ∧
    (decStream engC4 1 ⟨[253, 4, 88], 3, 3⟩ ⟨4, 0⟩ zdsC4).output.pos = 0 ∧
    (decStream engC4 1 ⟨[253, 4, 88], 3, 3⟩ ⟨4, 0⟩ zdsC4).zds.noForwardProgress =
      zdsC4.noForwardProgress ∧
    (decStream engC4 1 ⟨[253, 4, 88], 3, 3⟩ ⟨4, 0⟩ zdsC4).zds.noForwardProgress ≠
      zdsC4.noForwardProgress + 1 := by
  decide

/-- C3 (amended): every `decStream` call that reaches the result epilogue
with zero input consumed and zero output produced increments the session's
no-forward-progress counter, and every call that made progress resets it
to zero; when the incremented counter reaches the fixed threshold
`ZSTD_NO_FORWARD_PROGRESS_MAX = 16`, the call fails with the distinct
`noForwardProgress_destFull` error when the output view is saturated
(checked first) and with the distinct `noForwardProgress_inputEmpty` error
when the output has room but the input view is exhausted.  Calls that end
in the header-stage early return bypass this accounting altogether and
leave the counter unchanged (the third conjunct; see `C3_counterexample`
for a zero-progress call of that kind, which refutes the claim as
originally stated). -/
theorem C3_no_forward_progress (eng : Codec) (fuel : ℕ) (input : InBuffer)
    (output : OutBuffer) (zds : DStream)
    (hip : input.pos ≤ input.size)
    (hop : output.pos ≤ output.size)
    (hchk : ZSTD_checkOutBuffer zds output = .ok ()) :
    (∀ zds1, decLoop eng input output fuel zds input.pos output.pos =
        .stopped zds1 input.pos output.pos →
      (decStream eng fuel input output zds).zds.noForwardProgress =
        zds1.noForwardProgress + 1 ∧
      (zds1.noForwardProgress + 1 ≥ ZSTD_NO_FORWARD_PROGRESS_MAX →
        (output.pos = output.size →
          (decStream eng fuel input output zds).res =
            .error ZSTD_error_noForwardProgress_destFull) ∧
        (output.pos ≠ output.size → input.pos = input.size →
          (decStream eng fuel input output zds).res =
            .error ZSTD_error_noForwardProgress_inputEmpty))) ∧
    (∀ zds2 ip op, decLoop eng input output fuel zds input.pos output.pos =
        .stopped zds2 ip op → ¬ (ip = input.pos ∧ op = output.pos) →
      (decStream eng fuel input output zds).zds.noForwardProgress = 0) ∧
    (∀ v zds3, decLoop eng input output fuel zds input.pos output.pos =
        .returned v zds3 →
      (decStream eng fuel input output zds).res = .ok v ∧
      (decStream eng fuel input output zds).zds.noForwardProgress =
        zds3.noForwardProgress) := by
  have h1 : ¬ input.pos > input.size := not_lt.mpr hip
  have h2 : ¬ output.pos > output.size := not_lt.mpr hop
  refine ⟨?_, ?_, ?_⟩
  · intro zds1 hloop
    have hout : decStream eng fuel input output zds =
        decEpilogue eng input output zds1 input.pos output.pos := by
      simp only [decStream, h1, h2, hchk, hloop, if_false, reduceIte]
    constructor
    · rw [hout]
      simp only [decEpilogue]
      rw [if_pos (by simp)]
      split_ifs <;> simp [decHint_noForward]
    · intro hthr
      constructor
      · intro hoend
        rw [hout]
        simp only [decEpilogue]
        rw [if_pos (by simp)]
        rw [if_pos (by simpa using hthr), if_pos hoend]
      · intro hnoend hiend
        rw [hout]
        simp only [decEpilogue]
        rw [if_pos (by simp)]
        rw [if_pos (by simpa using hthr), if_neg hnoend, if_pos hiend]
  · intro zds2 ip op hloop hne
    have hout : decStream eng fuel input output zds =
        decEpilogue eng input output zds2 ip op := by
      simp only [decStream, h1, h2, hchk, hloop, if_false, reduceIte]
    rw [hout]
    simp only [decEpilogue]
    rw [if_neg hne]
    simp [decHint_noForward]
  · intro v zds3 hloop
    have hout : decStream eng fuel input output zds =
        ⟨.ok v, { input with pos := input.size }, output, zds3⟩ := by
      simp only [decStream, h1, h2, hchk, hloop, if_false, reduceIte]
    rw [hout]
    exact ⟨rfl, rfl⟩

/-- Session state of the no-forward-progress witness: suspended in
`zdss_flush` with one staged byte left, counter one call short of the
threshold. -/
def zdsC3 : DStream :=
  { zdsBase with streamStage := .zdss_flush, outEnd := 1,
                 noForwardProgress := 15 }

/-- Input view of the no-forward-progress witness (unconsumed data left so
the input is not the saturated view). -/
def inC3 : InBuffer := ⟨[5], 1, 0⟩

/-- Output view of the no-forward-progress witness: already full. -/
def outC3 : OutBuffer := ⟨3, 3⟩

/-- C3 witness: a 16th consecutive zero-progress call against a full
output view increments the counter to the threshold and fails with the
`destFull` error. -/
theorem C3_witness :
    (decStream engTrivial 1 inC3 outC3 zdsC3).zds.noForwardProgress =
      zdsC3.noForwardProgress + 1 ∧
    (decStream engTrivial 1 inC3 outC3 zdsC3).res =
      .error ZSTD_error_noForwardProgress_destFull := by
  have h := C3_no_forward_progress engTrivial 1 inC3 outC3 zdsC3
    (by decide) (by decide) (by decide)
  have h1 := h.1 { zdsC3 with outStart := zdsC3.outStart + 0 } (by decide)
  exact ⟨h1.1, (h1.2 (by decide)).1 (by decide)⟩
